import Mathlib

/-!
Verification development for the HTS duty calculator.

The definitions below are a shallow embedding of the Python sources
`backend/services/duty_calculator.py` and
`backend/services/hts_data_service.py`.  Strings are embedded as `List Char`,
Python `Decimal`/`float` values as `ℚ` (Python's `Decimal(str(float(x)))`
round-trip reproduces the written decimal literal for the magnitudes involved,
so the numeric values are exact rationals; the binary rounding of the
presentation-only `float(...)` wrappers on effective rates is not modelled).
Fallible code (Python `float(...)` conversion, which raises `ValueError`)
is embedded with `Except`.  The regular expressions of the source are
embedded as explicit scanners over `List Char`, following Python `re`
semantics (leftmost match, greedy quantifiers); for each pattern the source
uses, backtracking cannot change the match set, so the greedy deterministic
scanner below is equivalent to the regex engine on every input.
-/

/-- The character class `\d` of the source's regexes (ASCII digits). -/
def digitChars : List Char := ['0', '1', '2', '3', '4', '5', '6', '7', '8', '9']

/-- Test for `\d`. -/
def charIsDigit (c : Char) : Bool := digitChars.contains c

/-- The character class `[\d.]` used by the rate-extraction groups. -/
def isRunChar (c : Char) : Bool := charIsDigit c || c == '.'

/-- The character class `\s` (ASCII whitespace, also used for `str.strip`). -/
def spaceChars : List Char := [' ', '\t', '\n', '\r', '\x0b', '\x0c']

/-- Test for `\s`. -/
def charIsSpace (c : Char) : Bool := spaceChars.contains c

/-- Embedding of `str.lower` (ASCII case mapping; the inputs involved contain
no non-ASCII cased letters). -/
def lowerStr (s : List Char) : List Char := s.map Char.toLower

/-- Embedding of `str.strip`. -/
def trimStr (s : List Char) : List Char :=
  ((s.dropWhile charIsSpace).reverse.dropWhile charIsSpace).reverse

/-- Embedding of `str(duty_str).strip().lower()` (line 72 of the source). -/
def normalize_duty (s : List Char) : List Char := lowerStr (trimStr s)

/-- Substring containment, the embedding of Python's `pattern in s` and of a
regex alternation of plain literals. -/
def containsSub (p : List Char) : List Char → Bool
  | [] => p.isEmpty
  | c :: t => p.isPrefixOf (c :: t) || containsSub p (t : List Char)

/-- Scan every start position with a positional matcher, returning the first
hit: the embedding of `re.search` (leftmost match). -/
def searchO {α : Type} (f : List Char → Option α) : List Char → Option α
  | [] => f []
  | c :: t =>
    match f (c :: t) with
    | some a => some a
    | none => searchO f t

/-- Boolean variant of `searchO`. -/
def searchB (f : List Char → Bool) : List Char → Bool
  | [] => f []
  | c :: t => f (c :: t) || searchB f t

/-- Positional matcher for `\d+\.?\d*\s*%` (from `_is_percentage_duty`). -/
def pct_at (s : List Char) : Bool :=
  let ds := s.takeWhile charIsDigit
  if ds.isEmpty then false
  else
    let r1 := s.dropWhile charIsDigit
    let r2 := if r1.head? = some '.' then r1.tail else r1
    let r4 := (r2.dropWhile charIsDigit).dropWhile charIsSpace
    decide (r4.head? = some '%')

/-- Embedding of `_is_percentage_duty`: `re.search(r'\d+\.?\d*\s*%', s)`. -/
def is_percentage_duty (s : List Char) : Bool := searchB pct_at s

/-- Embedding of `_is_weight_duty`: `re.search(r'¢/kg|cents/kg|cent/kg', s)`
(a pure alternation of literals, hence substring containment). -/
def is_weight_duty (s : List Char) : Bool :=
  containsSub ("¢/kg").toList s || containsSub ("cents/kg").toList s ||
    containsSub ("cent/kg").toList s

/-- Positional matcher for `\$\s*/\s*unit` (the second alternative of
`_is_unit_duty`; the first alternative `\$/unit` is the special case with no
whitespace). -/
def unit_sym_at (s : List Char) : Bool :=
  match s with
  | '$' :: t =>
    match t.dropWhile charIsSpace with
    | '/' :: t2 => ("unit").toList.isPrefixOf (t2.dropWhile charIsSpace)
    | _ => false
  | _ => false

/-- Embedding of `_is_unit_duty`: `re.search(r'\$/unit|\$\s*/\s*unit|dollar/unit', s)`. -/
def is_unit_duty (s : List Char) : Bool :=
  containsSub ("$/unit").toList s || searchB unit_sym_at s ||
    containsSub ("dollar/unit").toList s

/-- Embedding of `_is_compound_duty`:
`'+' in duty_str or 'plus' in duty_str or '&' in duty_str`. -/
def is_compound_duty (s : List Char) : Bool :=
  s.contains '+' || containsSub ("plus").toList s || s.contains '&'

/-- Positional matcher for `([\d.]+)\s*<lit>`, returning the captured group:
the maximal `[\d.]` run at this position, accepted iff it is followed (after
whitespace) by the literal `lit`.  Shrinking the greedy run cannot recover a
failed match (the next character is again in `[\d.]`, which matches neither
`\s` nor the literal head), so this is the exact regex semantics. -/
def run_before_at (lit : List Char) (s : List Char) : Option (List Char) :=
  let run := s.takeWhile isRunChar
  if run.isEmpty then none
  else if lit.isPrefixOf ((s.dropWhile isRunChar).dropWhile charIsSpace) then some run
  else none

/-- Embedding of `re.search(r'([\d.]+)\s*<lit>', s).group(1)`. -/
def find_run_before (lit : List Char) (s : List Char) : Option (List Char) :=
  searchO (run_before_at lit) s

/-- Positional matcher for `\$?([\d.]+)\s*/?\s*unit` (from
`_calculate_unit_duty`), returning the captured group. -/
def unit_run_at (s : List Char) : Option (List Char) :=
  let s1 := match s with
    | '$' :: t => t
    | _ => s
  let run := s1.takeWhile isRunChar
  if run.isEmpty then none
  else
    let r1 := (s1.dropWhile isRunChar).dropWhile charIsSpace
    let r2 := match r1 with
      | '/' :: t => t
      | _ => r1
    if ("unit").toList.isPrefixOf (r2.dropWhile charIsSpace) then some run else none

/-- Embedding of the decimal-integer value of a digit string. -/
def nat_of_digits (l : List Char) : ℕ :=
  l.foldl (fun a c => 10 * a + (c.toNat - 48)) 0

/-- Value of a `[\d.]+` group accepted by Python `float` (at most one dot and
at least one digit): integer part plus fractional part. -/
def rat_of_run (run : List Char) : ℚ :=
  let ip := run.takeWhile charIsDigit
  match run.dropWhile charIsDigit with
  | '.' :: fp => (nat_of_digits ip : ℚ) + (nat_of_digits fp : ℚ) / ((10 : ℚ) ^ fp.length)
  | _ => (nat_of_digits ip : ℚ)

/-- Embedding of Python `float(group)` on a `[\d.]+` group: raises
`ValueError` exactly when the token has several dots or no digit. -/
def float_of_run (run : List Char) : Except (List Char) ℚ :=
  if run.count '.' ≤ 1 ∧ run.any charIsDigit then .ok (rat_of_run run)
  else .error (("could not convert string to float: ").toList ++ run)

/-- Embedding of `Decimal.quantize(Decimal('0.01'), rounding=ROUND_HALF_UP)`:
round to two decimal places, ties away from zero. -/
def quantize2 (q : ℚ) : ℚ :=
  if 0 ≤ q then ((⌊q * 100 + 1 / 2⌋ : ℤ) : ℚ) / 100
  else -(((⌊-(q * 100) + 1 / 2⌋ : ℤ) : ℚ) / 100)

/-- Embedding of the `DutyType` enum of the source (note: the source has no
`Unparseable` member; unparseable text is reported with the `complex` tag). -/
inductive DutyType where
  | percentage
  | specific_weight
  | specific_unit
  | compound
  | free
  | complex
deriving DecidableEq, Repr

/-- Embedding of the `DutyComponent` dataclass.  The presentation-only
`description` field (an f-string over Python float reprs) is not modelled. -/
structure DutyComponent where
  type : DutyType
  rate : ℚ
  unit : List Char
  amount : ℚ
deriving DecidableEq, Repr

/-- Embedding of the `DutyCalculation` dataclass. -/
structure DutyCalculation where
  duty_type : DutyType
  original_rate : List Char
  components : List DutyComponent
  total_amount : ℚ
  effective_rate : ℚ
  applicable : Bool := true
  notes : Option (List (List Char)) := none
deriving DecidableEq, Repr

/-- Embedding of `_create_free_duty`. -/
def create_free_duty (t : List Char) : DutyCalculation :=
  { duty_type := .free, original_rate := t,
    components := [⟨.free, 0, [], 0⟩],
    total_amount := 0, effective_rate := 0,
    notes := some [("Product qualifies for duty-free entry").toList] }

/-- Embedding of `_create_error_duty`. -/
def create_error_duty (t msg : List Char) : DutyCalculation :=
  { duty_type := .complex, original_rate := t, components := [],
    total_amount := 0, effective_rate := 0, applicable := false,
    notes := some [("Error: ").toList ++ msg] }

/-- Embedding of `float((amount / cif_value * 100)) if cif_value > 0 else 0.0`. -/
def eff_rate (total cif : ℚ) : ℚ := if 0 < cif then total / cif * 100 else 0

/-- Embedding of `_calculate_percentage_duty`. -/
def calculate_percentage_duty (t : List Char) (cif : ℚ) :
    Except (List Char) DutyCalculation :=
  match find_run_before ['%'] t with
  | none => .ok (create_error_duty t ("Could not parse percentage rate").toList)
  | some g => do
    let rate ← float_of_run g
    let amount := quantize2 (cif * rate / 100)
    .ok { duty_type := .percentage, original_rate := t,
          components := [⟨.percentage, rate, ['%'], amount⟩],
          total_amount := amount, effective_rate := rate }

/-- Embedding of `_calculate_weight_duty` (the extraction regex accepts only
the `¢/kg` symbol form, unlike the classifier `_is_weight_duty`). -/
def calculate_weight_duty (t : List Char) (cif : ℚ) (weight : Option ℚ) :
    Except (List Char) DutyCalculation :=
  match weight with
  | none => .ok (create_error_duty t ("Weight required for weight-based duty").toList)
  | some w =>
    match find_run_before ("¢/kg").toList t with
    | none => .ok (create_error_duty t ("Could not parse weight rate").toList)
    | some g => do
      let rate ← float_of_run g
      let amount := quantize2 (rate * w / 100)
      .ok { duty_type := .specific_weight, original_rate := t,
            components := [⟨.specific_weight, rate, ("¢/kg").toList, amount⟩],
            total_amount := amount, effective_rate := eff_rate amount cif }

/-- Embedding of `_calculate_unit_duty`. -/
def calculate_unit_duty (t : List Char) (cif : ℚ) (qty : Option ℤ) :
    Except (List Char) DutyCalculation :=
  match qty with
  | none => .ok (create_error_duty t ("Quantity required for unit-based duty").toList)
  | some n =>
    match searchO unit_run_at t with
    | none => .ok (create_error_duty t ("Could not parse unit rate").toList)
    | some g => do
      let rate ← float_of_run g
      let amount := quantize2 (rate * (n : ℚ))
      .ok { duty_type := .specific_unit, original_rate := t,
            components := [⟨.specific_unit, rate, ("$/unit").toList, amount⟩],
            total_amount := amount, effective_rate := eff_rate amount cif }

/-- Positional matcher for the delimiter regex of `_calculate_compound_duty`:
`\s*[\+&]\s*|,\s*|\s+plus\s+` (alternatives tried in order at each position;
each alternative consumes at least one character).  Returns the remaining
text after the delimiter. -/
def delim_at (s : List Char) : Option (List Char) :=
  match s.dropWhile charIsSpace with
  | '+' :: t => some (t.dropWhile charIsSpace)
  | '&' :: t => some (t.dropWhile charIsSpace)
  | _ =>
    match s with
    | ',' :: t => some (t.dropWhile charIsSpace)
    | c :: _ =>
      if charIsSpace c then
        let r := s.dropWhile charIsSpace
        if ("plus").toList.isPrefixOf r then
          match r.drop 4 with
          | c2 :: _ =>
            if charIsSpace c2 then some ((r.drop 4).dropWhile charIsSpace) else none
          | [] => none
        else none
      else none
    | [] => none

/-- Worker for `re.split`: scan left to right, cutting a piece at each
leftmost delimiter match.  The fuel argument only serves termination; every
delimiter consumes at least one character, so `length + 1` fuel is never
exhausted. -/
def split_aux : ℕ → List Char → List Char → List (List Char)
  | 0, s, acc => [acc.reverse ++ s]
  | _ + 1, [], acc => [acc.reverse]
  | fuel + 1, c :: t, acc =>
    match delim_at (c :: t) with
    | some rest => acc.reverse :: split_aux fuel rest []
    | none => split_aux fuel t (c :: acc)

/-- Embedding of `re.split(r'\s*[\+&]\s*|,\s*|\s+plus\s+', duty_str)`. -/
def split_compound (s : List Char) : List (List Char) :=
  split_aux (s.length + 1) s []

/-- The per-part loop of `_calculate_compound_duty`: each non-empty stripped
part is classified as percentage, weight or unit duty (never split again);
unrecognized parts are skipped, as are sub-results with no components (the
error duties produced when an input is missing or a rate fails to parse). -/
def compound_fold (cif : ℚ) (w : Option ℚ) (q : Option ℤ) :
    List (List Char) → Except (List Char) (List DutyComponent × ℚ)
  | [] => .ok ([], 0)
  | p :: rest => do
    let p' := trimStr p
    if p'.isEmpty then compound_fold cif w q rest
    else do
      let sub ←
        if is_percentage_duty p' then (calculate_percentage_duty p' cif).map some
        else if is_weight_duty p' then (calculate_weight_duty p' cif w).map some
        else if is_unit_duty p' then (calculate_unit_duty p' cif q).map some
        else .ok none
      let (cs, tot) ← compound_fold cif w q rest
      match sub with
      | none => .ok (cs, tot)
      | some sc =>
        if sc.components.isEmpty then .ok (cs, tot)
        else .ok (sc.components ++ cs, sc.total_amount + tot)

/-- Decimal digits of a natural number, for the compound note f-string. -/
def nat_to_chars (n : ℕ) : List Char := Nat.toDigits 10 n

/-- Embedding of `_calculate_compound_duty`. -/
def calculate_compound_duty (t : List Char) (cif : ℚ) (w : Option ℚ) (q : Option ℤ) :
    Except (List Char) DutyCalculation := do
  let (cs, tot) ← compound_fold cif w q (split_compound t)
  .ok { duty_type := .compound, original_rate := t, components := cs,
        total_amount := tot, effective_rate := eff_rate tot cif,
        notes := some [("Compound duty with ").toList ++ nat_to_chars cs.length ++
                        (" components").toList] }

/-- Positional matcher for `re.findall(r'([\d.]+)\s*%', s)`: the captured
group together with the text after the match (for non-overlapping scanning). -/
def pct_all_at (s : List Char) : Option (List Char × List Char) :=
  let run := s.takeWhile isRunChar
  if run.isEmpty then none
  else
    match (s.dropWhile isRunChar).dropWhile charIsSpace with
    | '%' :: t => some (run, t)
    | _ => none

/-- Positional matcher for `re.findall(r'([\d.]+)\s*¢/kg', s)`. -/
def weight_all_at (s : List Char) : Option (List Char × List Char) :=
  let run := s.takeWhile isRunChar
  if run.isEmpty then none
  else
    let r := (s.dropWhile isRunChar).dropWhile charIsSpace
    if ("¢/kg").toList.isPrefixOf r then some (run, r.drop 4) else none

/-- Positional matcher for `re.findall(r'\$?([\d.]+)\s*/?\s*unit', s)`. -/
def unit_all_at (s : List Char) : Option (List Char × List Char) :=
  let s1 := match s with
    | '$' :: t => t
    | _ => s
  let run := s1.takeWhile isRunChar
  if run.isEmpty then none
  else
    let r1 := (s1.dropWhile isRunChar).dropWhile charIsSpace
    let r2 := match r1 with
      | '/' :: t => t
      | _ => r1
    let r3 := r2.dropWhile charIsSpace
    if ("unit").toList.isPrefixOf r3 then some (run, r3.drop 4) else none

/-- Embedding of `re.findall`: repeated leftmost matching, resuming after
each match (every match consumes at least one character, so `length + 1`
fuel is never exhausted). -/
def find_all (f : List Char → Option (List Char × List Char)) :
    ℕ → List Char → List (List Char)
  | 0, _ => []
  | _ + 1, [] => []
  | fuel + 1, c :: t =>
    match f (c :: t) with
    | some (g, rest) => g :: find_all f fuel rest
    | none => find_all f fuel t

/-- Truthiness of the optional weight (`if weight_kg:` skips `0.0`). -/
def weight_truthy (w : Option ℚ) : Bool :=
  match w with
  | some x => decide (x ≠ 0)
  | none => false

/-- Truthiness of the optional quantity (`if quantity:` skips `0`). -/
def qty_truthy (q : Option ℤ) : Bool :=
  match q with
  | some n => decide (n ≠ 0)
  | none => false

/-- The percentage loop of `_calculate_complex_duty`. -/
def complex_pct_fold (cif : ℚ) : List (List Char) →
    Except (List Char) (List DutyComponent × ℚ)
  | [] => .ok ([], 0)
  | g :: rest => do
    let rate ← float_of_run g
    let amount := quantize2 (cif * rate / 100)
    let (cs, tot) ← complex_pct_fold cif rest
    .ok (⟨.percentage, rate, ['%'], amount⟩ :: cs, amount + tot)

/-- The weight loop of `_calculate_complex_duty` (runs only when the weight
input is truthy; the float conversion sits inside that guard). -/
def complex_weight_fold (w : ℚ) : List (List Char) →
    Except (List Char) (List DutyComponent × ℚ)
  | [] => .ok ([], 0)
  | g :: rest => do
    let rate ← float_of_run g
    let amount := quantize2 (rate * w / 100)
    let (cs, tot) ← complex_weight_fold w rest
    .ok (⟨.specific_weight, rate, ("¢/kg").toList, amount⟩ :: cs, amount + tot)

/-- The unit loop of `_calculate_complex_duty`. -/
def complex_unit_fold (n : ℤ) : List (List Char) →
    Except (List Char) (List DutyComponent × ℚ)
  | [] => .ok ([], 0)
  | g :: rest => do
    let rate ← float_of_run g
    let amount := quantize2 (rate * (n : ℚ))
    let (cs, tot) ← complex_unit_fold n rest
    .ok (⟨.specific_unit, rate, ("$/unit").toList, amount⟩ :: cs, amount + tot)

/-- Embedding of `_calculate_complex_duty`. -/
def calculate_complex_duty (t : List Char) (cif : ℚ) (w : Option ℚ) (q : Option ℤ) :
    Except (List Char) DutyCalculation := do
  let pg := find_all pct_all_at (t.length + 1) t
  let wg := find_all weight_all_at (t.length + 1) t
  let ug := find_all unit_all_at (t.length + 1) t
  let (pc, ptot) ← complex_pct_fold cif pg
  let (wc, wtot) ←
    match w with
    | some x => if x ≠ 0 then complex_weight_fold x wg else .ok ([], 0)
    | none => .ok ([], 0)
  let (uc, utot) ←
    match q with
    | some n => if n ≠ 0 then complex_unit_fold n ug else .ok ([], 0)
    | none => .ok ([], 0)
  let comps := pc ++ wc ++ uc
  if comps.isEmpty then .ok (create_error_duty t ("Unable to parse duty structure").toList)
  else
    .ok { duty_type := .complex, original_rate := t, components := comps,
          total_amount := ptot + wtot + utot, effective_rate := eff_rate (ptot + wtot + utot) cif,
          notes := some [("Complex duty structure - manual verification recommended").toList] }

/-- The free-text list of line 74 of the source. -/
def free_texts : List (List Char) :=
  [[], ("free").toList, ("0").toList, ("0%").toList]

/-- Embedding of `DutyCalculator.parse_duty_rate`: normalization, the free
cases, then the classifier chain in source order (percentage, weight, unit,
compound, complex).  `none` stands for a null rate column (`pd.isna`). -/
def parse_duty_rate (duty_str : Option (List Char)) (cif : ℚ)
    (weight : Option ℚ) (qty : Option ℤ) : Except (List Char) DutyCalculation :=
  match duty_str with
  | none => .ok (create_free_duty [])
  | some s0 =>
    if s0.isEmpty then .ok (create_free_duty [])
    else
      let t := normalize_duty s0
      if free_texts.contains t then .ok (create_free_duty t)
      else if is_percentage_duty t then calculate_percentage_duty t cif
      else if is_weight_duty t then calculate_weight_duty t cif weight
      else if is_unit_duty t then calculate_unit_duty t cif qty
      else if is_compound_duty t then calculate_compound_duty t cif weight qty
      else calculate_complex_duty t cif weight qty

/-- Embedding of `DutyCalculator.calculate_cif_value`. -/
def calculate_cif_value (product_cost freight insurance : ℚ) : ℚ :=
  quantize2 (product_cost + freight + insurance)

/-- Embedding of `DutyCalculator.calculate_landed_cost`. -/
def calculate_landed_cost (cif_value total_duty : ℚ) : ℚ :=
  quantize2 (cif_value + total_duty)

/-- The key of the `min(..., key=...)` call of `HTSDataService.calculate_duties`:
`x.total_amount if x.applicable else float('inf')`. -/
def duty_sort_key (d : DutyCalculation) : WithTop ℚ :=
  if d.applicable then (d.total_amount : WithTop ℚ) else ⊤

/-- Embedding of `min([general_calc, special_calc, column2_calc], key=...)`:
Python `min` scans left to right and replaces the current best only on a
strictly smaller key, so the first minimizer wins. -/
def select_applicable (g s c : DutyCalculation) : DutyCalculation :=
  let b1 := if duty_sort_key s < duty_sort_key g then s else g
  if duty_sort_key c < duty_sort_key b1 then c else b1

/-- Embedding of the `HTSProduct` database entity (the fields the duty flow
reads; rate columns are nullable). -/
structure HTSProductRec where
  hts_number : List Char
  description : List Char
  unit_of_measure : List Char
  general_duty_rate : Option (List Char)
  special_duty_rate : Option (List Char)
  column2_duty_rate : Option (List Char)
deriving DecidableEq, Repr

/-- Embedding of `HTSDataService.get_hts_product`: first row whose
`hts_number` matches.  The returned value is a copy; the session it came from
is closed before it is returned. -/
def get_hts_product (store : List HTSProductRec) (h : List Char) : Option HTSProductRec :=
  store.find? (fun p => p.hts_number == h)

/-- The result assembled by `HTSDataService.calculate_duties` (the semantic
fields of the response dictionary; the float formatting layer of
`_format_duty_calculation` is presentation only). -/
structure CalculationOutcome where
  hts_number : List Char
  description : List Char
  cif_value : ℚ
  general : DutyCalculation
  special : DutyCalculation
  column2 : DutyCalculation
  applicable_result : DutyCalculation
  total_duty : ℚ
  landed_cost : ℚ
  effective_duty_rate : ℚ
deriving DecidableEq, Repr

/-- Embedding of `HTSDataService.calculate_duties`: resolve the product
(a missing product raises `ValueError`, embedded as `.error`), compute CIF,
parse the three rate columns, select the lowest-keyed result, compute landed
cost and assemble the outcome.  The best-effort history write is a side
effect outside the calculation and is not modelled. -/
def calculate_duties (store : List HTSProductRec) (hts : List Char)
    (product_cost freight insurance : ℚ) (qty : Option ℤ) (weight : Option ℚ) :
    Except (List Char) CalculationOutcome :=
  match get_hts_product store hts with
  | none => .error (("HTS number ").toList ++ hts ++ (" not found in database").toList)
  | some p => do
    let cif := calculate_cif_value product_cost freight insurance
    let g ← parse_duty_rate p.general_duty_rate cif weight qty
    let s ← parse_duty_rate p.special_duty_rate cif weight qty
    let c ← parse_duty_rate p.column2_duty_rate cif weight qty
    let app := select_applicable g s c
    .ok { hts_number := p.hts_number, description := p.description, cif_value := cif,
          general := g, special := s, column2 := c, applicable_result := app,
          total_duty := app.total_amount,
          landed_cost := calculate_landed_cost cif app.total_amount,
          effective_duty_rate := app.effective_rate }

/-- One CSV row of `bulk_import_hts_data` after column renaming; `none`
stands for a missing value (`pd.isna`). -/
structure CSVRow where
  hts_number : Option (List Char)
  description : Option (List Char)
  unit_of_measure : Option (List Char)
  general_duty_rate : Option (List Char)
  special_duty_rate : Option (List Char)
  column2_duty_rate : Option (List Char)
deriving Repr

/-- Embedding of `str(row.get(field, '')).strip()`. -/
def field_str (o : Option (List Char)) : List Char := trimStr (o.getD [])

/-- Embedding of `HTSDataService.add_hts_product`: update the existing row
(with a commit) or insert a new one. -/
def add_hts_product (store : List HTSProductRec) (p : HTSProductRec) : List HTSProductRec :=
  if (store.find? (fun q => q.hts_number == p.hts_number)).isSome then
    store.map (fun q => if q.hts_number == p.hts_number then p else q)
  else store ++ [p]

/-- Import counters returned by `bulk_import_hts_data`. -/
structure ImportResult where
  imported : ℕ
  updated : ℕ
  errors : ℕ
  total_processed : ℕ
deriving DecidableEq, Repr

/-- One iteration of the row loop of `bulk_import_hts_data`.  Rows without an
HTS number are skipped.  In the existing-product branch the source assigns new
field values to the detached ORM object returned by `get_hts_product` — whose
session was already closed — and never commits, so the stored data does not
change; only the `updated` counter advances.  New products go through
`add_hts_product`, which does commit.  The only exception source inside the
loop (`IntegrityError` on insert) cannot fire here, so the error counter
stays zero. -/
def bulk_step (acc : List HTSProductRec × ℕ × ℕ) (row : CSVRow) :
    List HTSProductRec × ℕ × ℕ :=
  match row.hts_number with
  | none => acc
  | some h0 =>
    let h := trimStr h0
    match get_hts_product acc.1 h with
    | some _ => (acc.1, acc.2.1, acc.2.2 + 1)
    | none =>
      (add_hts_product acc.1
        { hts_number := h, description := field_str row.description,
          unit_of_measure := field_str row.unit_of_measure,
          general_duty_rate := some (field_str row.general_duty_rate),
          special_duty_rate := some (field_str row.special_duty_rate),
          column2_duty_rate := some (field_str row.column2_duty_rate) },
       acc.2.1 + 1, acc.2.2)

/-- Embedding of `HTSDataService.bulk_import_hts_data` over already-parsed
rows: fold the row loop and assemble the statistics. -/
def bulk_import_hts_data (store : List HTSProductRec) (rows : List CSVRow) :
    List HTSProductRec × ImportResult :=
  let r := rows.foldl bulk_step (store, 0, 0)
  (r.1, { imported := r.2.1, updated := r.2.2, errors := 0,
          total_processed := r.2.1 + r.2.2 + 0 })

/-- Modelled from the spec: the spec's result-kind vocabulary
(`Percentage|SpecificWeight|SpecificUnit|Compound|Free|Complex|Unparseable`),
which has a distinct `Unparseable` tag that the code's `DutyType` enum lacks. -/
inductive SpecKind where
  | percentage
  | specific_weight
  | specific_unit
  | compound
  | free
  | complex
  | unparseable
deriving DecidableEq, Repr

/-- Modelled from the spec: the evident name-for-name reading of the code's
result tags in the spec's vocabulary (nothing in the code can carry the
spec's remaining tag `unparseable`). -/
def spec_kind_of (d : DutyType) : SpecKind :=
  match d with
  | .percentage => .percentage
  | .specific_weight => .specific_weight
  | .specific_unit => .specific_unit
  | .compound => .compound
  | .free => .free
  | .complex => .complex

deriving instance DecidableEq for Except

/-- C2 as frozen names the malformed numeral `5..5%`: the classifier
`\d+\.?\d*\s*%` accepts the trailing `5%`, the extraction group `([\d.]+)`
then captures `5..5`, and `float('5..5')` raises `ValueError`; the exception
escapes `parse_duty_rate`.  This theorem evaluates the embedded code at that
input for every CIF value, weight and quantity. -/
theorem c2_parse_raises_on_malformed_numeral (cif : ℚ) (w : Option ℚ) (q : Option ℤ) :
    parse_duty_rate (some (("5..5%").toList)) cif w q =
      .error (("could not convert string to float: 5..5").toList) := by
  rfl

/-- C7: `parse("$1.50/unit", cif_value=1000, weight_kg=None, quantity=10)`
returns `total_amount = 15.00`, and the same string with `quantity=None`
yields `is_applicable = false`.  (The string does not match the
`_is_unit_duty` classifier — `$` is directly followed by digits — so both
results come from the complex fallback path, which the claim's asserted
values do not distinguish.) -/
theorem c7_unit_rate_example :
    ((parse_duty_rate (some (("$1.50/unit").toList)) 1000 none (some 10)).map
      (fun r => r.total_amount) = .ok 15) ∧
    ((parse_duty_rate (some (("$1.50/unit").toList)) 1000 none none).map
      (fun r => (r.applicable, r.total_amount)) = .ok (false, 0)) := by
  exact ⟨by with_unfolding_all rfl, by with_unfolding_all rfl⟩

/-- C1 counterexample: the classifier chain of `parse_duty_rate` tries
`_is_percentage_duty` before `_is_compound_duty`, so `"5% + 2¢/kg"` is
classified as a percentage duty with total 50.00 — not as Compound with
total 52.00 as the claim states. -/
theorem c1_counterexample :
    (parse_duty_rate (some (("5% + 2¢/kg").toList)) 1000 (some 100) none).map
      (fun r => (r.duty_type, r.total_amount)) = .ok (DutyType.percentage, 50) ∧
    DutyType.percentage ≠ DutyType.compound ∧ (50 : ℚ) ≠ 52 := by
  refine ⟨by with_unfolding_all rfl, by decide, by norm_num⟩

/-- C6 counterexample: with the same rate 2 and weight 100, the textual form
`"2 cents/kg"` produces an inapplicable error result (amount 0) while the
symbol form `"2¢/kg"` produces the applicable amount 2.00: the two forms do
not produce the same result. -/
theorem c6_counterexample :
    ((parse_duty_rate (some (("2 cents/kg").toList)) 1000 (some 100) none).map
      (fun r => (r.applicable, r.total_amount, r.notes)) =
      .ok (false, 0, some [("Error: Could not parse weight rate").toList])) ∧
    ((parse_duty_rate (some (("2¢/kg").toList)) 1000 (some 100) none).map
      (fun r => (r.applicable, r.total_amount)) = .ok (true, 2)) := by
  exact ⟨by with_unfolding_all rfl, by with_unfolding_all rfl⟩

/-- C4 counterexample: on `"garbage text with no numbers"` the result kind is
the code's `Complex` tag, not the spec's distinct `Unparseable` tag (which
the code's `DutyType` does not even contain). -/
theorem c4_counterexample :
    (parse_duty_rate (some (("garbage text with no numbers").toList)) 1000 none none).map
      (fun r => spec_kind_of r.duty_type) ≠ .ok SpecKind.unparseable ∧
    (parse_duty_rate (some (("garbage text with no numbers").toList)) 1000 none none).map
      (fun r => spec_kind_of r.duty_type) = .ok SpecKind.complex := by
  have h : (parse_duty_rate (some (("garbage text with no numbers").toList)) 1000
      none none).map (fun r => spec_kind_of r.duty_type) = .ok SpecKind.complex := by
    with_unfolding_all rfl
  exact ⟨by rw [h]; decide, h⟩

/-- A stored product used to exercise the bulk-import update branch. -/
def c8_store : List HTSProductRec :=
  [{ hts_number := ("1111").toList, description := ("old description").toList,
     unit_of_measure := ("No.").toList,
     general_duty_rate := some (("5%").toList),
     special_duty_rate := some (("free").toList),
     column2_duty_rate := some (("10%").toList) }]

/-- A CSV row carrying new values for the already-stored HTS number 1111. -/
def c8_row_update : CSVRow :=
  { hts_number := some (("1111").toList),
    description := some (("new description").toList),
    unit_of_measure := some (("kg").toList),
    general_duty_rate := some (("3%").toList),
    special_duty_rate := some (("free").toList),
    column2_duty_rate := some (("20%").toList) }

/-- A CSV row with an HTS number not yet in the store. -/
def c8_row_new : CSVRow :=
  { hts_number := some (("2222").toList),
    description := some (("fresh").toList),
    unit_of_measure := some (("kg").toList),
    general_duty_rate := some (("5%").toList),
    special_duty_rate := some (("free").toList),
    column2_duty_rate := some (("10%").toList) }

/-- C8: the round-trip holds for a new HTS number (second conjunct), but
fails for an existing one: importing `c8_row_update` reports `updated = 1`
yet leaves the store unchanged — the source assigned the new values to a
detached ORM object from an already-closed session and never committed — so
the subsequent lookup still returns the old description and rate strings,
not the row's values. -/
theorem c8_bulk_import_update_lost :
    ((bulk_import_hts_data c8_store [c8_row_update]).1 = c8_store ∧
     (bulk_import_hts_data c8_store [c8_row_update]).2 =
       { imported := 0, updated := 1, errors := 0, total_processed := 1 } ∧
     (get_hts_product (bulk_import_hts_data c8_store [c8_row_update]).1
         (("1111").toList)).map (fun p => (p.description, p.general_duty_rate)) =
       some ((("old description").toList), some (("5%").toList)) ∧
     ("old description").toList ≠ ("new description").toList) ∧
    (get_hts_product (bulk_import_hts_data c8_store [c8_row_new]).1 (("2222").toList)) =
      some { hts_number := ("2222").toList, description := ("fresh").toList,
             unit_of_measure := ("kg").toList,
             general_duty_rate := some (("5%").toList),
             special_duty_rate := some (("free").toList),
             column2_duty_rate := some (("10%").toList) } := by
  exact ⟨⟨by rfl, by rfl, by rfl, by decide⟩, by rfl⟩

/-- A product whose three rate columns are all unparseable text. -/
def c5_store : List HTSProductRec :=
  [{ hts_number := ("9999").toList, description := ("widget").toList,
     unit_of_measure := ("No.").toList,
     general_duty_rate := some (("abc").toList),
     special_duty_rate := some (("abc").toList),
     column2_duty_rate := some (("abc").toList) }]

/-- C5 counterexample: with all three columns inapplicable, `calculate_duties`
still returns a normal outcome (`Except.ok`, not an error) whose selected
result merely carries `applicable = false`. -/
theorem c5_counterexample :
    (calculate_duties c5_store (("9999").toList) 100 10 5 (some 2) (some 3)).map
      (fun o => (o.applicable_result.applicable, o.total_duty)) = .ok (false, 0) := by
  with_unfolding_all rfl

/-- C9: on non-negative inputs, `calculate_cif_value` is the sum rounded to
two decimals by round-half-up (the floor formula), the result is within half
a cent of the exact sum with ties rounded up (the non-strict bound on the
high side), the result is an exact integer number of cents, and
`calculate_landed_cost` rounds `cif + duty` the same way. -/
theorem c9_cif_and_landed_cost_round_half_up
    (cost freight insurance cif duty : ℚ)
    (h1 : 0 ≤ cost) (h2 : 0 ≤ freight) (h3 : 0 ≤ insurance)
    (h4 : 0 ≤ cif) (h5 : 0 ≤ duty) :
    calculate_cif_value cost freight insurance =
      ((⌊(cost + freight + insurance) * 100 + 1 / 2⌋ : ℤ) : ℚ) / 100 ∧
    calculate_landed_cost cif duty =
      ((⌊(cif + duty) * 100 + 1 / 2⌋ : ℤ) : ℚ) / 100 ∧
    (cost + freight + insurance) - 1 / 200 < calculate_cif_value cost freight insurance ∧
    calculate_cif_value cost freight insurance ≤ (cost + freight + insurance) + 1 / 200 ∧
    ∃ n : ℤ, calculate_cif_value cost freight insurance * 100 = (n : ℚ) := by
  have hs : (0 : ℚ) ≤ cost + freight + insurance := by positivity
  have hc : (0 : ℚ) ≤ cif + duty := by positivity
  have e1 : calculate_cif_value cost freight insurance =
      ((⌊(cost + freight + insurance) * 100 + 1 / 2⌋ : ℤ) : ℚ) / 100 := by
    rw [calculate_cif_value, quantize2, if_pos hs]
  have e2 : calculate_landed_cost cif duty =
      ((⌊(cif + duty) * 100 + 1 / 2⌋ : ℤ) : ℚ) / 100 := by
    rw [calculate_landed_cost, quantize2, if_pos hc]
  have hf1 : ((⌊(cost + freight + insurance) * 100 + 1 / 2⌋ : ℤ) : ℚ) ≤
      (cost + freight + insurance) * 100 + 1 / 2 := Int.floor_le _
  have hf2 : (cost + freight + insurance) * 100 + 1 / 2 <
      ((⌊(cost + freight + insurance) * 100 + 1 / 2⌋ : ℤ) : ℚ) + 1 := Int.lt_floor_add_one _
  refine ⟨e1, e2, ?_, ?_, ⟨⌊(cost + freight + insurance) * 100 + 1 / 2⌋, ?_⟩⟩
  · rw [e1]; linarith
  · rw [e1]; linarith
  · rw [e1]; ring

/-- Witness for C9 at a round-half-up tie: `10.005 + 0 + 0` rounds to
`10.01 = 2001/200 + 1/200`. -/
theorem c9_witness :
    (0 : ℚ) ≤ 2001 / 200 ∧
    calculate_cif_value (2001 / 200) 0 0 =
      ((⌊((2001 / 200 : ℚ) + 0 + 0) * 100 + 1 / 2⌋ : ℤ) : ℚ) / 100 ∧
    calculate_cif_value (2001 / 200) 0 0 ≤ ((2001 / 200 : ℚ) + 0 + 0) + 1 / 200 := by
  have h := c9_cif_and_landed_cost_round_half_up (2001 / 200) 0 0 1 0
    (by norm_num) (by norm_num) (by norm_num) (by norm_num) (by norm_num)
  exact ⟨by norm_num, h.1, h.2.2.2.1⟩

/-- Helper for C3: a result whose key is below the key of an applicable
result is itself applicable (an applicable key is a finite coercion, an
inapplicable key is the top element). -/
lemma key_le_applicable {d e : DutyCalculation}
    (hle : duty_sort_key d ≤ duty_sort_key e) (he : e.applicable = true) :
    d.applicable = true := by
  by_contra hd
  have hd' : d.applicable = false := by
    cases hda : d.applicable
    · rfl
    · exact absurd hda hd
  rw [duty_sort_key, if_neg (by simp [hd']), duty_sort_key, if_pos he] at hle
  exact WithTop.coe_ne_top (top_le_iff.1 hle)

/-- Helper for C3: the selected result is one of the three and its key is a
lower bound of the three keys. -/
lemma select_applicable_min (g s c : DutyCalculation) :
    (select_applicable g s c = g ∨ select_applicable g s c = s ∨
      select_applicable g s c = c) ∧
    duty_sort_key (select_applicable g s c) ≤ duty_sort_key g ∧
    duty_sort_key (select_applicable g s c) ≤ duty_sort_key s ∧
    duty_sort_key (select_applicable g s c) ≤ duty_sort_key c := by
  unfold select_applicable
  by_cases h1 : duty_sort_key s < duty_sort_key g
  · rw [if_pos h1]
    by_cases h2 : duty_sort_key c < duty_sort_key s
    · rw [if_pos h2]
      exact ⟨Or.inr (Or.inr rfl), le_of_lt (lt_trans h2 h1), le_of_lt h2, le_refl _⟩
    · rw [if_neg h2]
      exact ⟨Or.inr (Or.inl rfl), le_of_lt h1, le_refl _, not_lt.1 h2⟩
  · rw [if_neg h1]
    by_cases h2 : duty_sort_key c < duty_sort_key g
    · rw [if_pos h2]
      exact ⟨Or.inr (Or.inr rfl), le_of_lt h2, le_trans (le_of_lt h2) (not_lt.1 h1),
        le_refl _⟩
    · rw [if_neg h2]
      exact ⟨Or.inl rfl, le_refl _, not_lt.1 h1, not_lt.1 h2⟩

/-- The 50.00 applicable result of the spec's selection example. -/
def c3_general : DutyCalculation :=
  { duty_type := .percentage, original_rate := ("5%").toList, components := [],
    total_amount := 50, effective_rate := 5 }

/-- The 22.50 applicable result of the spec's selection example. -/
def c3_special : DutyCalculation :=
  { duty_type := .specific_weight, original_rate := ("4.5¢/kg").toList, components := [],
    total_amount := 45 / 2, effective_rate := 9 / 4 }

/-- The inapplicable result of the spec's selection example. -/
def c3_column2 : DutyCalculation :=
  { duty_type := .complex, original_rate := ("x").toList, components := [],
    total_amount := 0, effective_rate := 0, applicable := false }

/-- C3: the selected duty is one of the three inputs, its key (total amount
for applicable results, top for inapplicable ones) is minimal among the
three keys, an applicable candidate forces the selection to be applicable,
and on the spec's example `[50.00 applicable, 22.50 applicable,
inapplicable]` the 22.50 result is selected. -/
theorem c3_lowest_applicable_selected :
    (∀ g s c : DutyCalculation,
      (select_applicable g s c = g ∨ select_applicable g s c = s ∨
        select_applicable g s c = c) ∧
      duty_sort_key (select_applicable g s c) ≤ duty_sort_key g ∧
      duty_sort_key (select_applicable g s c) ≤ duty_sort_key s ∧
      duty_sort_key (select_applicable g s c) ≤ duty_sort_key c ∧
      ((g.applicable = true ∨ s.applicable = true ∨ c.applicable = true) →
        (select_applicable g s c).applicable = true)) ∧
    select_applicable c3_general c3_special c3_column2 = c3_special := by
  constructor
  · intro g s c
    obtain ⟨hmem, hg, hs, hc⟩ := select_applicable_min g s c
    refine ⟨hmem, hg, hs, hc, ?_⟩
    rintro (h | h | h)
    · exact key_le_applicable hg h
    · exact key_le_applicable hs h
    · exact key_le_applicable hc h
  · have h1 : duty_sort_key c3_special < duty_sort_key c3_general := by
      rw [duty_sort_key, duty_sort_key, c3_special, c3_general]
      simp only [if_pos]
      exact_mod_cast (by norm_num : (45 / 2 : ℚ) < 50)
    have h2 : ¬ duty_sort_key c3_column2 < duty_sort_key c3_special := by
      rw [duty_sort_key, c3_column2]
      simp [not_top_lt]
    rw [select_applicable]
    rw [if_pos h1]
    rw [if_neg h2]

/-- Witness for C3: the general statement applied to the example records;
the applicable-propagation hypothesis is discharged with the applicable
22.50 result. -/
theorem c3_witness :
    (select_applicable c3_general c3_special c3_column2 = c3_general ∨
      select_applicable c3_general c3_special c3_column2 = c3_special ∨
      select_applicable c3_general c3_special c3_column2 = c3_column2) ∧
    (select_applicable c3_general c3_special c3_column2).applicable = true :=
  ⟨(c3_lowest_applicable_selected.1 c3_general c3_special c3_column2).1,
    (c3_lowest_applicable_selected.1 c3_general c3_special c3_column2).2.2.2.2
      (Or.inr (Or.inl rfl))⟩

/-- Helper: a string containing a compound delimiter is none of the four
free texts. -/
lemma compound_duty_not_free {t : List Char} (h : is_compound_duty t = true) :
    free_texts.contains t = false := by
  cases hc : free_texts.contains t
  · rfl
  · exfalso
    have hmem : t ∈ free_texts := List.mem_of_elem_eq_true hc
    fin_cases hmem
    · exact absurd h (by decide)
    · exact absurd h (by decide)
    · exact absurd h (by decide)
    · exact absurd h (by decide)

/-- Helper: when the three single-kind classifiers reject the normalized
text and the compound classifier accepts it, `parse_duty_rate` delegates to
`_calculate_compound_duty` (the classifier chain in source order). -/
lemma parse_eq_compound {s0 : List Char} (cif : ℚ) (w : Option ℚ) (q : Option ℤ)
    (hp : is_percentage_duty (normalize_duty s0) = false)
    (hw : is_weight_duty (normalize_duty s0) = false)
    (hu : is_unit_duty (normalize_duty s0) = false)
    (hc : is_compound_duty (normalize_duty s0) = true) :
    parse_duty_rate (some s0) cif w q =
      calculate_compound_duty (normalize_duty s0) cif w q := by
  have h0 : s0.isEmpty = false := by
    cases s0
    · exact absurd hc (by decide)
    · rfl
  have hfree : free_texts.contains (normalize_duty s0) = false :=
    compound_duty_not_free hc
  simp only [parse_duty_rate, h0, hfree, hp, hw, hu, hc, Bool.false_eq_true,
    if_false, if_true]

/-- Helper: when every classifier rejects the normalized text of a non-empty
non-free input, `parse_duty_rate` falls through to
`_calculate_complex_duty`. -/
lemma parse_eq_complex {s0 : List Char} (cif : ℚ) (w : Option ℚ) (q : Option ℤ)
    (h0 : s0.isEmpty = false)
    (hfree : free_texts.contains (normalize_duty s0) = false)
    (hp : is_percentage_duty (normalize_duty s0) = false)
    (hw : is_weight_duty (normalize_duty s0) = false)
    (hu : is_unit_duty (normalize_duty s0) = false)
    (hc : is_compound_duty (normalize_duty s0) = false) :
    parse_duty_rate (some s0) cif w q =
      calculate_complex_duty (normalize_duty s0) cif w q := by
  simp only [parse_duty_rate, h0, hfree, hp, hw, hu, hc, Bool.false_eq_true,
    if_false]

/-- C1 amended: compound classification does not take priority — the
single-kind matchers are tried first, and a string containing a compound
delimiter reaches `_calculate_compound_duty` (split on the delimiters, each
part independently evaluated, recognized parts summed) only when no
percentage, weight or unit pattern occurs in the whole string.  In
particular `"5% + 2¢/kg"` is taken by the percentage matcher: kind
Percentage, total 50.00. -/
theorem c1_amended_percentage_first :
    (∀ (s0 : List Char) (cif : ℚ) (w : Option ℚ) (q : Option ℤ),
      is_percentage_duty (normalize_duty s0) = false →
      is_weight_duty (normalize_duty s0) = false →
      is_unit_duty (normalize_duty s0) = false →
      is_compound_duty (normalize_duty s0) = true →
      parse_duty_rate (some s0) cif w q =
        calculate_compound_duty (normalize_duty s0) cif w q) ∧
    (parse_duty_rate (some (("5% + 2¢/kg").toList)) 1000 (some 100) none).map
      (fun r => (r.duty_type, r.effective_rate, r.total_amount)) =
      .ok (DutyType.percentage, 5, 50) :=
  ⟨fun _ cif w q hp hw hu hc => parse_eq_compound cif w q hp hw hu hc,
   by with_unfolding_all rfl⟩

/-- Witness for C1: the delimiter string `"x & y"` matches no single-kind
pattern, so parsing delegates to the compound calculator. -/
theorem c1_witness :
    is_compound_duty (normalize_duty (("x & y").toList)) = true ∧
    parse_duty_rate (some (("x & y").toList)) 7 none none =
      calculate_compound_duty (normalize_duty (("x & y").toList)) 7 none none :=
  ⟨by rfl,
   c1_amended_percentage_first.1 (("x & y").toList) 7 none none
     (by rfl) (by rfl) (by rfl) (by rfl)⟩

/-- Helper for C10: when no split part matches any single-kind classifier,
the component loop of `_calculate_compound_duty` collects nothing. -/
lemma compound_fold_no_match (cif : ℚ) (w : Option ℚ) (q : Option ℤ) :
    ∀ parts : List (List Char),
      (∀ p ∈ parts, is_percentage_duty (trimStr p) = false ∧
        is_weight_duty (trimStr p) = false ∧ is_unit_duty (trimStr p) = false) →
      compound_fold cif w q parts = .ok ([], 0) := by
  intro parts
  induction parts with
  | nil => intro _; rfl
  | cons p rest ih =>
    intro h
    obtain ⟨hp, hw, hu⟩ := h p (List.mem_cons_self p rest)
    have hrest := ih (fun x hx => h x (List.mem_cons_of_mem p hx))
    rw [compound_fold]
    by_cases hemp : (trimStr p).isEmpty
    · rw [if_pos hemp]
      exact hrest
    · rw [if_neg hemp]
      simp only [hp, hw, hu, Bool.false_eq_true, if_false]
      rw [hrest]
      rfl

/-- Helper: binding an `Except.ok` value reduces. -/
lemma except_ok_bind {alpha beta : Type} (a : alpha) (f : alpha → Except (List Char) beta) :
    (Except.ok a >>= f) = f a := rfl

/-- C10: a string containing a compound delimiter none of whose split parts
(and none of whose whole text) matches a percentage, weight or unit pattern
parses to kind Compound with an empty component list, total 0.00 and
`applicable = true` — such text behaves as a zero duty rather than being
marked inapplicable, so it can win the lowest-duty selection. -/
theorem c10_unmatched_compound_is_zero_duty
    (s0 : List Char) (cif : ℚ) (w : Option ℚ) (q : Option ℤ)
    (hp : is_percentage_duty (normalize_duty s0) = false)
    (hw : is_weight_duty (normalize_duty s0) = false)
    (hu : is_unit_duty (normalize_duty s0) = false)
    (hc : is_compound_duty (normalize_duty s0) = true)
    (hparts : ∀ p ∈ split_compound (normalize_duty s0),
      is_percentage_duty (trimStr p) = false ∧
      is_weight_duty (trimStr p) = false ∧ is_unit_duty (trimStr p) = false) :
    parse_duty_rate (some s0) cif w q =
      .ok { duty_type := .compound, original_rate := normalize_duty s0,
            components := [], total_amount := 0, effective_rate := 0,
            applicable := true,
            notes := some [("Compound duty with 0 components").toList] } := by
  rw [parse_eq_compound cif w q hp hw hu hc, calculate_compound_duty,
    compound_fold_no_match cif w q _ hparts, except_ok_bind]
  simp only [eff_rate, zero_div, zero_mul, ite_self]
  norm_num
  decide

/-- Witness for C10 at the delimiter string `"abc + def"`: zero total,
no components, applicable. -/
theorem c10_witness :
    parse_duty_rate (some (("abc + def").toList)) 1000 none none =
      .ok { duty_type := .compound, original_rate := normalize_duty (("abc + def").toList),
            components := [], total_amount := 0, effective_rate := 0,
            applicable := true,
            notes := some [("Compound duty with 0 components").toList] } :=
  c10_unmatched_compound_is_zero_duty (("abc + def").toList) 1000 none none
    (by rfl) (by rfl) (by rfl) (by rfl) (by decide)

/-- C4 amended: on non-empty, non-free text in which no percentage, weight
or unit pattern occurs anywhere and which contains no compound delimiter,
`parse_duty_rate` returns the error result of the complex fallback: the
code's `Complex` kind (the `DutyType` enum has no separate `Unparseable`
tag), `applicable = false`, total 0, and the explanatory note
`"Error: Unable to parse duty structure"`. -/
theorem c4_amended_unparseable_is_complex_error
    (s0 : List Char) (cif : ℚ) (w : Option ℚ) (q : Option ℤ)
    (h0 : s0.isEmpty = false)
    (hfree : free_texts.contains (normalize_duty s0) = false)
    (hp : is_percentage_duty (normalize_duty s0) = false)
    (hw : is_weight_duty (normalize_duty s0) = false)
    (hu : is_unit_duty (normalize_duty s0) = false)
    (hc : is_compound_duty (normalize_duty s0) = false)
    (hfp : find_all pct_all_at ((normalize_duty s0).length + 1) (normalize_duty s0) = [])
    (hfw : find_all weight_all_at ((normalize_duty s0).length + 1) (normalize_duty s0) = [])
    (hfu : find_all unit_all_at ((normalize_duty s0).length + 1) (normalize_duty s0) = []) :
    parse_duty_rate (some s0) cif w q =
      .ok (create_error_duty (normalize_duty s0)
            ("Unable to parse duty structure").toList) := by
  rw [parse_eq_complex cif w q h0 hfree hp hw hu hc, calculate_complex_duty,
    hfp, hfw, hfu]
  cases w with
  | none =>
    cases q with
    | none => rfl
    | some n =>
      simp only [show complex_pct_fold cif [] = Except.ok ([], (0 : ℚ)) from rfl,
        show complex_unit_fold n [] = Except.ok ([], (0 : ℚ)) from rfl, except_ok_bind]
      split_ifs <;> first | rfl | exact absurd rfl (by assumption)
  | some x =>
    cases q with
    | none =>
      simp only [show complex_pct_fold cif [] = Except.ok ([], (0 : ℚ)) from rfl,
        show complex_weight_fold x [] = Except.ok ([], (0 : ℚ)) from rfl, except_ok_bind]
      split_ifs <;> first | rfl | exact absurd rfl (by assumption)
    | some n =>
      simp only [show complex_pct_fold cif [] = Except.ok ([], (0 : ℚ)) from rfl,
        show complex_weight_fold x [] = Except.ok ([], (0 : ℚ)) from rfl,
        show complex_unit_fold n [] = Except.ok ([], (0 : ℚ)) from rfl, except_ok_bind]
      split_ifs <;> first | rfl | exact absurd rfl (by assumption)

/-- Witness for C4 at `"garbage text with no numbers"`. -/
theorem c4_witness :
    parse_duty_rate (some (("garbage text with no numbers").toList)) 1000 none none =
      .ok (create_error_duty (normalize_duty (("garbage text with no numbers").toList))
            ("Unable to parse duty structure").toList) :=
  c4_amended_unparseable_is_complex_error (("garbage text with no numbers").toList)
    1000 none none (by rfl) (by rfl) (by rfl) (by rfl) (by rfl) (by rfl)
    (by rfl) (by rfl) (by rfl)

/-- C5 amended: when the resolved product exists and all three rate columns
evaluate (without raising) to inapplicable results, `calculate_duties` does
NOT surface an error: it returns a normal outcome built from the tied
selection (the general column, first minimum under the `+infinity` keys),
whose `applicable` entry has `is_applicable = false`; callers must inspect
that flag. -/
theorem c5_amended_all_inapplicable_returns_outcome
    (store : List HTSProductRec) (hts : List Char) (p : HTSProductRec)
    (product_cost freight insurance : ℚ) (qty : Option ℤ) (weight : Option ℚ)
    (g s c : DutyCalculation)
    (hfind : get_hts_product store hts = some p)
    (hg : parse_duty_rate p.general_duty_rate
      (calculate_cif_value product_cost freight insurance) weight qty = .ok g)
    (hs : parse_duty_rate p.special_duty_rate
      (calculate_cif_value product_cost freight insurance) weight qty = .ok s)
    (hc : parse_duty_rate p.column2_duty_rate
      (calculate_cif_value product_cost freight insurance) weight qty = .ok c)
    (hga : g.applicable = false) (hsa : s.applicable = false)
    (hca : c.applicable = false) :
    calculate_duties store hts product_cost freight insurance qty weight =
      .ok { hts_number := p.hts_number, description := p.description,
            cif_value := calculate_cif_value product_cost freight insurance,
            general := g, special := s, column2 := c, applicable_result := g,
            total_duty := g.total_amount,
            landed_cost := calculate_landed_cost
              (calculate_cif_value product_cost freight insurance) g.total_amount,
            effective_duty_rate := g.effective_rate } := by
  have hsel : select_applicable g s c = g := by
    simp [select_applicable, duty_sort_key, hga, hsa, hca]
  simp only [calculate_duties, hfind, hg, hs, hc, except_ok_bind, hsel]

/-- Witness for C5: the three-column `"abc"` product; each column parses to
the inapplicable complex error duty and the outcome is still `Except.ok`. -/
theorem c5_witness :
    calculate_duties c5_store (("9999").toList) 100 10 5 (some 2) (some 3) =
      .ok { hts_number := ("9999").toList, description := ("widget").toList,
            cif_value := calculate_cif_value 100 10 5,
            general := create_error_duty (("abc").toList)
              ("Unable to parse duty structure").toList,
            special := create_error_duty (("abc").toList)
              ("Unable to parse duty structure").toList,
            column2 := create_error_duty (("abc").toList)
              ("Unable to parse duty structure").toList,
            applicable_result := create_error_duty (("abc").toList)
              ("Unable to parse duty structure").toList,
            total_duty := 0,
            landed_cost := calculate_landed_cost (calculate_cif_value 100 10 5) 0,
            effective_duty_rate := 0 } :=
  c5_amended_all_inapplicable_returns_outcome c5_store (("9999").toList)
    { hts_number := ("9999").toList, description := ("widget").toList,
      unit_of_measure := ("No.").toList,
      general_duty_rate := some (("abc").toList),
      special_duty_rate := some (("abc").toList),
      column2_duty_rate := some (("abc").toList) }
    100 10 5 (some 2) (some 3)
    (create_error_duty (("abc").toList) ("Unable to parse duty structure").toList)
    (create_error_duty (("abc").toList) ("Unable to parse duty structure").toList)
    (create_error_duty (("abc").toList) ("Unable to parse duty structure").toList)
    (by rfl) (by with_unfolding_all rfl) (by with_unfolding_all rfl)
    (by with_unfolding_all rfl) (by rfl) (by rfl) (by rfl)

/-- Helper: a `[\d.]` character is one of the ten digits or the dot. -/
lemma runChar_elim {c : Char} (h : isRunChar c = true) : c ∈ digitChars ∨ c = '.' := by
  rw [isRunChar, Bool.or_eq_true] at h
  rcases h with h | h
  · exact Or.inl (List.mem_of_elem_eq_true h)
  · exact Or.inr (eq_of_beq h)

/-- Helper: lowercasing fixes `[\d.]` characters. -/
lemma runChar_toLower {c : Char} (h : isRunChar c = true) : c.toLower = c := by
  rcases runChar_elim h with h | h
  · fin_cases h <;> decide
  · subst h; decide

/-- Helper: a `[\d.]` character is not whitespace. -/
lemma runChar_not_space {c : Char} (h : isRunChar c = true) : charIsSpace c = false := by
  rcases runChar_elim h with h | h
  · fin_cases h <;> decide
  · subst h; decide

/-- Helper: a `[\d.]` character is not the percent sign. -/
lemma runChar_ne_pct {c : Char} (h : isRunChar c = true) : c ≠ '%' := by
  rcases runChar_elim h with h | h
  · fin_cases h <;> decide
  · subst h; decide

/-- Helper: a `[\d.]` character is not the cent sign. -/
lemma runChar_ne_cent {c : Char} (h : isRunChar c = true) : c ≠ '¢' := by
  rcases runChar_elim h with h | h
  · fin_cases h <;> decide
  · subst h; decide

/-- Helper: lowercasing fixes a string of `[\d.]` characters. -/
lemma lowerStr_runs {ds : List Char} (h : ∀ c ∈ ds, isRunChar c = true) :
    lowerStr ds = ds := by
  induction ds with
  | nil => rfl
  | cons c t ih =>
    rw [lowerStr, List.map_cons, runChar_toLower (h c (List.mem_cons_self c t))]
    rw [show List.map Char.toLower t = lowerStr t from rfl,
      ih (fun x hx => h x (List.mem_cons_of_mem c hx))]

/-- Helper: `dropWhile` keeps a list whose head fails the predicate. -/
lemma dropWhile_cons_false {p : Char → Bool} {c : Char} {t : List Char}
    (h : p c = false) : (c :: t).dropWhile p = c :: t := by
  simp [List.dropWhile_cons, h]

/-- Helper: `dropWhile` returns a suffix. -/
lemma dropWhile_is_suffix (p : Char → Bool) :
    ∀ s : List Char, ∃ t, t ++ s.dropWhile p = s := by
  intro s
  induction s with
  | nil => exact ⟨[], rfl⟩
  | cons a l ih =>
    by_cases h : p a
    · obtain ⟨t, ht⟩ := ih
      exact ⟨a :: t, by simp [List.dropWhile_cons, h, ht]⟩
    · exact ⟨[], by simp [List.dropWhile_cons, h]⟩

/-- Helper: membership passes from `dropWhile p s` back to `s`. -/
lemma mem_of_mem_dropWhile {p : Char → Bool} {c : Char} {s : List Char}
    (h : c ∈ s.dropWhile p) : c ∈ s := by
  obtain ⟨t, ht⟩ := dropWhile_is_suffix p s
  rw [← ht]
  exact List.mem_append_right t h

/-- Helper: the head of a non-empty prefix occurs in the larger list. -/
lemma head_mem_of_isPrefixOf {a : Char} {l r : List Char}
    (h : (a :: l).isPrefixOf r = true) : a ∈ r := by
  cases r with
  | nil => exact absurd h (by simp [List.isPrefixOf])
  | cons b bs =>
    rw [List.isPrefixOf, Bool.and_eq_true] at h
    rw [eq_of_beq h.1]
    exact List.mem_cons_self b bs

/-- Helper: a positional matcher that can only fire on text containing a
given character finds nothing in text avoiding that character. -/
lemma searchO_eq_none {α : Type} {f : List Char → Option α} {bad : Char}
    (hf : ∀ t g, f t = some g → bad ∈ t) :
    ∀ s : List Char, bad ∉ s → searchO f s = none := by
  intro s
  induction s with
  | nil =>
    intro _
    rw [searchO]
    cases hfe : f [] with
    | none => rfl
    | some g => exact absurd (hf [] g hfe) (List.not_mem_nil bad)
  | cons c t ih =>
    intro hmem
    rw [searchO]
    cases hfe : f (c :: t) with
    | none => exact ih (fun hx => hmem (List.mem_cons_of_mem c hx))
    | some g => exact absurd (hf _ g hfe) hmem

/-- Helper: Boolean variant of `searchO_eq_none`. -/
lemma searchB_eq_false {f : List Char → Bool} {bad : Char}
    (hf : ∀ t, f t = true → bad ∈ t) :
    ∀ s : List Char, bad ∉ s → searchB f s = false := by
  intro s
  induction s with
  | nil =>
    intro _
    rw [searchB]
    cases hfe : f [] with
    | false => rfl
    | true => exact absurd (hf [] hfe) (List.not_mem_nil bad)
  | cons c t ih =>
    intro hmem
    rw [searchB]
    cases hfe : f (c :: t) with
    | false =>
      rw [Bool.false_or]
      exact ih (fun hx => hmem (List.mem_cons_of_mem c hx))
    | true => exact absurd (hf _ hfe) hmem

/-- Helper: the head given by `head?` is a member. -/
lemma mem_of_head? {a : Char} {l : List Char} (h : l.head? = some a) : a ∈ l := by
  cases l with
  | nil => cases h
  | cons b bs =>
    rw [List.head?_cons, Option.some.injEq] at h
    rw [← h]
    exact List.mem_cons_self b bs

/-- Helper: a percentage-pattern hit contains a percent sign. -/
lemma pct_at_mem {s : List Char} (h : pct_at s = true) : '%' ∈ s := by
  rw [pct_at] at h
  by_cases hds : (s.takeWhile charIsDigit).isEmpty
  · simp [hds] at h
  · simp only [hds, Bool.false_eq_true, if_false, decide_eq_true_eq] at h
    have h4 : '%' ∈ ((if (s.dropWhile charIsDigit).head? = some '.' then
        (s.dropWhile charIsDigit).tail else
        s.dropWhile charIsDigit).dropWhile charIsDigit).dropWhile charIsSpace :=
      mem_of_head? h
    have h2 : '%' ∈ (if (s.dropWhile charIsDigit).head? = some '.' then
        (s.dropWhile charIsDigit).tail else s.dropWhile charIsDigit) :=
      mem_of_mem_dropWhile (mem_of_mem_dropWhile h4)
    have h1 : '%' ∈ s.dropWhile charIsDigit := by
      by_cases hdot : (s.dropWhile charIsDigit).head? = some '.'
      · rw [if_pos hdot] at h2
        cases hc : s.dropWhile charIsDigit with
        | nil => rw [hc] at h2; cases h2
        | cons b bs =>
          rw [hc, List.tail_cons] at h2
          exact List.mem_cons_of_mem b h2
      · rw [if_neg hdot] at h2
        exact h2
    exact mem_of_mem_dropWhile h1

/-- Helper: a rate-extraction hit for a pattern headed by `a` contains `a`. -/
lemma run_before_at_mem {a : Char} {lit s g : List Char}
    (h : run_before_at (a :: lit) s = some g) : a ∈ s := by
  rw [run_before_at] at h
  by_cases hrun : (s.takeWhile isRunChar).isEmpty
  · simp [hrun] at h
  · simp only [hrun, Bool.false_eq_true, if_false] at h
    by_cases hpre : (a :: lit).isPrefixOf
        ((s.dropWhile isRunChar).dropWhile charIsSpace) = true
    · exact mem_of_mem_dropWhile (mem_of_mem_dropWhile (head_mem_of_isPrefixOf hpre))
    · rw [if_neg hpre] at h
      cases h

/-- Helper: substring containment is preserved by prepending text. -/
lemma containsSub_append_left {p t : List Char} (s : List Char)
    (h : containsSub p t = true) : containsSub p (s ++ t) = true := by
  induction s with
  | nil => exact h
  | cons c s' ih =>
    rw [List.cons_append, containsSub, ih, Bool.or_true]

/-- Helper: `takeWhile` passes over a prefix all of whose characters satisfy
the predicate. -/
lemma takeWhile_append_all {p : Char → Bool} {ds : List Char} (r : List Char)
    (h : ∀ c ∈ ds, p c = true) : (ds ++ r).takeWhile p = ds ++ r.takeWhile p := by
  induction ds with
  | nil => rfl
  | cons c t ih =>
    rw [List.cons_append, List.takeWhile_cons, h c (List.mem_cons_self c t),
      ih (fun x hx => h x (List.mem_cons_of_mem c hx))]
    simp

/-- Helper: `dropWhile` passes over a prefix all of whose characters satisfy
the predicate. -/
lemma dropWhile_append_all {p : Char → Bool} {ds : List Char} (r : List Char)
    (h : ∀ c ∈ ds, p c = true) : (ds ++ r).dropWhile p = r.dropWhile p := by
  induction ds with
  | nil => rfl
  | cons c t ih =>
    rw [List.cons_append, List.dropWhile_cons, h c (List.mem_cons_self c t)]
    simpa using ih (fun x hx => h x (List.mem_cons_of_mem c hx))

/-- Helper: a string of length at least five is not one of the free texts. -/
lemma not_free_of_long {t : List Char} (h : 5 ≤ t.length) :
    free_texts.contains t = false := by
  cases hc : free_texts.contains t
  · rfl
  · exfalso
    have hmem : t ∈ free_texts := List.mem_of_elem_eq_true hc
    fin_cases hmem
    · exact absurd h (by decide)
    · exact absurd h (by decide)
    · exact absurd h (by decide)
    · exact absurd h (by decide)

/-- Helper: normalization fixes a `[\d.]` run followed by an already
lowercase literal that does not end in whitespace. -/
lemma normalize_duty_run_append {ds lit : List Char}
    (hrun : ∀ c ∈ ds, isRunChar c = true) (hne : ds ≠ [])
    (hlower : lowerStr lit = lit)
    (hrev : ∀ c, lit.reverse.head? = some c → charIsSpace c = false)
    (hlit_ne : lit ≠ []) :
    normalize_duty (ds ++ lit) = ds ++ lit := by
  obtain ⟨d0, ds', rfl⟩ : ∃ d0 ds', ds = d0 :: ds' := by
    cases ds with
    | nil => exact absurd rfl hne
    | cons d0 ds' => exact ⟨d0, ds', rfl⟩
  obtain ⟨g0, lr, hlr⟩ : ∃ g0 lr, lit.reverse = g0 :: lr := by
    cases hl : lit.reverse with
    | nil =>
      exfalso
      exact hlit_ne (by simpa using congrArg List.reverse hl)
    | cons g0 lr => exact ⟨g0, lr, rfl⟩
  have htrim : trimStr ((d0 :: ds') ++ lit) = (d0 :: ds') ++ lit := by
    rw [trimStr, List.cons_append,
      dropWhile_cons_false (runChar_not_space (hrun d0 (List.mem_cons_self d0 ds')))]
    rw [show ((d0 :: (ds' ++ lit)).reverse : List Char) =
      lit.reverse ++ (ds'.reverse ++ [d0]) by simp]
    rw [hlr, List.cons_append,
      dropWhile_cons_false (hrev g0 (by rw [hlr]; rfl))]
    rw [← List.cons_append, ← hlr]
    simp
  rw [normalize_duty, htrim, lowerStr, List.map_append]
  rw [show List.map Char.toLower (d0 :: ds') = lowerStr (d0 :: ds') from rfl,
    show List.map Char.toLower lit = lowerStr lit from rfl,
    lowerStr_runs hrun, hlower]

/-- Helper: when the percentage classifier rejects and the weight classifier
accepts the normalized text, `parse_duty_rate` delegates to
`_calculate_weight_duty`. -/
lemma parse_eq_weight {s0 : List Char} (cif : ℚ) (w : Option ℚ) (q : Option ℤ)
    (h0 : s0.isEmpty = false)
    (hfree : free_texts.contains (normalize_duty s0) = false)
    (hp : is_percentage_duty (normalize_duty s0) = false)
    (hwd : is_weight_duty (normalize_duty s0) = true) :
    parse_duty_rate (some s0) cif w q =
      calculate_weight_duty (normalize_duty s0) cif w := by
  simp only [parse_duty_rate, h0, hfree, hp, hwd, Bool.false_eq_true, if_false,
    if_true]

/-- Helper: fixed head of a reversed literal bounds the last character. -/
lemma head?_some_not_space {lit : List Char} {g0 : Char}
    (h : lit.reverse.head? = some g0) (hg : charIsSpace g0 = false) :
    ∀ c, lit.reverse.head? = some c → charIsSpace c = false := by
  intro c hc
  rw [h, Option.some.injEq] at hc
  rw [← hc]
  exact hg

/-- Helper: a match at the head position is returned by the scan. -/
lemma searchO_cons_some {α : Type} {f : List Char → Option α} {c : Char}
    {t : List Char} {g : α} (h : f (c :: t) = some g) :
    searchO f (c :: t) = some g := by
  rw [searchO, h]

/-- Helper: a `[\d.]` rate token followed by a textual cents-per-kilogram
marker is classified as a weight duty, but the extraction regex
`([\d.]+)\s*¢/kg` (symbol form only) finds nothing, so the parse returns the
inapplicable error duty with note `Could not parse weight rate`. -/
lemma weight_textual_not_parsed (ds lit : List Char) (cif w : ℚ) (q : Option ℤ)
    (hne : ds ≠ []) (hrun : ∀ c ∈ ds, isRunChar c = true)
    (hlower : lowerStr lit = lit)
    (hrev : ∀ c, lit.reverse.head? = some c → charIsSpace c = false)
    (hlit_ne : lit ≠ []) (hlen : 4 ≤ lit.length)
    (hnopct : '%' ∉ lit) (hnocent : '¢' ∉ lit)
    (hwpat : containsSub ("cents/kg").toList lit = true ∨
      containsSub ("cent/kg").toList lit = true) :
    parse_duty_rate (some (ds ++ lit)) cif (some w) q =
      .ok (create_error_duty (ds ++ lit) ("Could not parse weight rate").toList) := by
  have hnorm := normalize_duty_run_append hrun hne hlower hrev hlit_ne
  have h0 : (ds ++ lit).isEmpty = false := by
    cases ds with
    | nil => exact absurd rfl hne
    | cons a b => rfl
  have hlen5 : 5 ≤ (ds ++ lit).length := by
    rw [List.length_append]
    have h1 : 1 ≤ ds.length := by
      cases ds with
      | nil => exact absurd rfl hne
      | cons a b => simp
    omega
  have hfree : free_texts.contains (normalize_duty (ds ++ lit)) = false := by
    rw [hnorm]
    exact not_free_of_long hlen5
  have hnp : '%' ∉ ds ++ lit := by
    intro hmem
    rcases List.mem_append.mp hmem with hm | hm
    · exact runChar_ne_pct (hrun '%' hm) rfl
    · exact hnopct hm
  have hp : is_percentage_duty (normalize_duty (ds ++ lit)) = false := by
    rw [hnorm]
    exact searchB_eq_false (fun t ht => pct_at_mem ht) _ hnp
  have hwd : is_weight_duty (normalize_duty (ds ++ lit)) = true := by
    rw [hnorm, is_weight_duty]
    rcases hwpat with hpat | hpat
    · rw [containsSub_append_left ds hpat]
      simp
    · rw [containsSub_append_left ds hpat]
      simp
  rw [parse_eq_weight cif (some w) q h0 hfree hp hwd, hnorm]
  have hnc : '¢' ∉ ds ++ lit := by
    intro hmem
    rcases List.mem_append.mp hmem with hm | hm
    · exact runChar_ne_cent (hrun '¢' hm) rfl
    · exact hnocent hm
  have hfrb : find_run_before (("¢/kg").toList) (ds ++ lit) = none := by
    rw [find_run_before]
    exact searchO_eq_none (fun t g hg => run_before_at_mem hg) _ hnc
  simp only [calculate_weight_duty, hfrb]

/-- Helper: a valid `[\d.]` rate token directly followed by the `¢/kg`
symbol parses to the applicable specific-weight duty with amount
`round2(rate * weight / 100)`. -/
lemma weight_symbol_parsed (ds : List Char) (cif w : ℚ) (q : Option ℤ)
    (hne : ds ≠ []) (hrun : ∀ c ∈ ds, isRunChar c = true)
    (hdot : ds.count '.' ≤ 1) (hdig : ds.any charIsDigit = true) :
    parse_duty_rate (some (ds ++ ("¢/kg").toList)) cif (some w) q =
      .ok { duty_type := .specific_weight,
            original_rate := ds ++ ("¢/kg").toList,
            components := [⟨.specific_weight, rat_of_run ds, ("¢/kg").toList,
              quantize2 (rat_of_run ds * w / 100)⟩],
            total_amount := quantize2 (rat_of_run ds * w / 100),
            effective_rate := eff_rate (quantize2 (rat_of_run ds * w / 100)) cif } := by
  have hnorm := normalize_duty_run_append hrun hne
    (show lowerStr (("¢/kg").toList) = ("¢/kg").toList from rfl)
    (head?_some_not_space (show (("¢/kg").toList).reverse.head? = some 'g' from rfl)
      (by rfl))
    (by decide)
  have h0 : (ds ++ ("¢/kg").toList).isEmpty = false := by
    cases ds with
    | nil => exact absurd rfl hne
    | cons a b => rfl
  have hlen5 : 5 ≤ (ds ++ ("¢/kg").toList).length := by
    rw [List.length_append]
    have h1 : 1 ≤ ds.length := by
      cases ds with
      | nil => exact absurd rfl hne
      | cons a b => simp
    have h2 : (("¢/kg").toList).length = 4 := by decide
    omega
  have hfree : free_texts.contains (normalize_duty (ds ++ ("¢/kg").toList)) = false := by
    rw [hnorm]
    exact not_free_of_long hlen5
  have hnp : '%' ∉ ds ++ ("¢/kg").toList := by
    intro hmem
    rcases List.mem_append.mp hmem with hm | hm
    · exact runChar_ne_pct (hrun '%' hm) rfl
    · exact absurd hm (by decide)
  have hp : is_percentage_duty (normalize_duty (ds ++ ("¢/kg").toList)) = false := by
    rw [hnorm]
    exact searchB_eq_false (fun t ht => pct_at_mem ht) _ hnp
  have hwd : is_weight_duty (normalize_duty (ds ++ ("¢/kg").toList)) = true := by
    rw [hnorm, is_weight_duty]
    rw [containsSub_append_left ds (show containsSub (("¢/kg").toList)
      (("¢/kg").toList) = true from rfl)]
    simp
  rw [parse_eq_weight cif (some w) q h0 hfree hp hwd, hnorm]
  have hdse : ds.isEmpty = false := by
    cases ds with
    | nil => exact absurd rfl hne
    | cons a b => rfl
  have hrba : run_before_at (("¢/kg").toList) (ds ++ ("¢/kg").toList) = some ds := by
    rw [run_before_at]
    have ht : (ds ++ ("¢/kg").toList).takeWhile isRunChar = ds := by
      rw [takeWhile_append_all _ hrun,
        show (("¢/kg").toList).takeWhile isRunChar = [] from rfl, List.append_nil]
    have hd : (ds ++ ("¢/kg").toList).dropWhile isRunChar = ("¢/kg").toList := by
      rw [dropWhile_append_all _ hrun]
      rfl
    rw [ht, hd]
    rw [if_neg (by rw [hdse]; exact Bool.false_ne_true)]
    rw [if_pos (by rfl)]
  have hfrb : find_run_before (("¢/kg").toList) (ds ++ ("¢/kg").toList) = some ds := by
    obtain ⟨d0, ds', rfl⟩ : ∃ d0 ds', ds = d0 :: ds' := by
      cases ds with
      | nil => exact absurd rfl hne
      | cons d0 ds' => exact ⟨d0, ds', rfl⟩
    rw [find_run_before]
    exact searchO_cons_some hrba
  have hflo : float_of_run ds = .ok (rat_of_run ds) := by
    rw [float_of_run, if_pos ⟨hdot, hdig⟩]
  simp only [calculate_weight_duty, hfrb, hflo, except_ok_bind]

/-- C6 amended: for every decimal rate token and positive weight, the
textual forms `"<r> cents/kg"` and `"<r> cent/kg"` are classified as weight
duties but the rate-extraction regex accepts only the `¢` symbol form, so
they return the inapplicable error result `Could not parse weight rate`
(amount 0) — not the applicable specific-weight result; the symbol form
`"<r>¢/kg"` returns the applicable amount `round2(r * w / 100)`. -/
theorem c6_amended_textual_weight_rejected
    (ds : List Char) (cif w : ℚ) (q : Option ℤ)
    (hne : ds ≠ []) (hrun : ∀ c ∈ ds, isRunChar c = true)
    (hdot : ds.count '.' ≤ 1) (hdig : ds.any charIsDigit = true)
    (hw : 0 < w) :
    (parse_duty_rate (some (ds ++ (" cents/kg").toList)) cif (some w) q =
      .ok (create_error_duty (ds ++ (" cents/kg").toList)
        ("Could not parse weight rate").toList)) ∧
    (parse_duty_rate (some (ds ++ (" cent/kg").toList)) cif (some w) q =
      .ok (create_error_duty (ds ++ (" cent/kg").toList)
        ("Could not parse weight rate").toList)) ∧
    (parse_duty_rate (some (ds ++ ("¢/kg").toList)) cif (some w) q =
      .ok { duty_type := .specific_weight,
            original_rate := ds ++ ("¢/kg").toList,
            components := [⟨.specific_weight, rat_of_run ds, ("¢/kg").toList,
              quantize2 (rat_of_run ds * w / 100)⟩],
            total_amount := quantize2 (rat_of_run ds * w / 100),
            effective_rate := eff_rate (quantize2 (rat_of_run ds * w / 100)) cif }) :=
  ⟨weight_textual_not_parsed ds ((" cents/kg").toList) cif w q hne hrun
      (by rfl)
      (head?_some_not_space (show ((" cents/kg").toList).reverse.head? = some 'g'
        from rfl) (by rfl))
      (by decide) (by decide) (by decide) (by decide)
      (Or.inl (by decide)),
   weight_textual_not_parsed ds ((" cent/kg").toList) cif w q hne hrun
      (by rfl)
      (head?_some_not_space (show ((" cent/kg").toList).reverse.head? = some 'g'
        from rfl) (by rfl))
      (by decide) (by decide) (by decide) (by decide)
      (Or.inr (by decide)),
   weight_symbol_parsed ds cif w q hne hrun hdot hdig⟩

/-- Witness for C6 at rate token `2`, weight 100: the textual forms return
the inapplicable error duty, the symbol form the applicable rate. -/
theorem c6_witness :
    (("2").toList ≠ [] ∧ (0 : ℚ) < 100) ∧
    parse_duty_rate (some ((("2").toList ++ (" cents/kg").toList))) 1000 (some 100) none =
      .ok (create_error_duty (("2").toList ++ (" cents/kg").toList)
        ("Could not parse weight rate").toList) ∧
    parse_duty_rate (some ((("2").toList ++ ("¢/kg").toList))) 1000 (some 100) none =
      .ok { duty_type := .specific_weight,
            original_rate := ("2").toList ++ ("¢/kg").toList,
            components := [⟨.specific_weight, rat_of_run (("2").toList), ("¢/kg").toList,
              quantize2 (rat_of_run (("2").toList) * 100 / 100)⟩],
            total_amount := quantize2 (rat_of_run (("2").toList) * 100 / 100),
            effective_rate := eff_rate (quantize2 (rat_of_run (("2").toList) * 100 / 100))
              1000 } :=
  ⟨⟨by decide, by norm_num⟩,
   (c6_amended_textual_weight_rejected (("2").toList) 1000 100 none
      (by decide) (by decide) (by decide) (by decide) (by norm_num)).1,
   (c6_amended_textual_weight_rejected (("2").toList) 1000 100 none
      (by decide) (by decide) (by decide) (by decide) (by norm_num)).2.2⟩
